/-
Verification of the AdamW optimizer step (`optimizers/functional/adamw.py`)
against its natural-language specification.

Embedding conventions:
* numpy n-dimensional arrays are modelled flattened, as `List ℚ`; an array's
  "shape" is its flat length, and every numpy operation the code performs is
  elementwise (`zipWith`) or a scalar broadcast (`map`), which agrees with the
  flattened view for same-shaped operands.
* scalars are exact rationals `ℚ`; floating-point rounding is not modelled
  (the spec states the update rule in exact real arithmetic).
* `np.sqrt` is an abstract scalar function `sq : ℚ → ℚ` threaded through all
  definitions; facts that depend on its values (e.g. `np.sqrt 0 = 0`) appear
  as explicit hypotheses.
* a Python exception escaping the call (IndexError on `m[i] = ...` when the
  state's lists are shorter than the zipped parameter list) is modelled as
  `Option.none`; a normal return is `some`.
* the Python `state` dict with keys "m" and "v" is the structure `AdamWState`;
  `state is None` is `Option.none`.
-/
import Mathlib

/-- A flattened numpy array of rationals. -/
abbrev Arr := List ℚ

/-- Scalar-times-array broadcast, `c * a` in numpy. -/
def smulA (c : ℚ) (a : Arr) : Arr := a.map (fun x => c * x)

/-- Elementwise array addition. -/
def addA (a b : Arr) : Arr := List.zipWith (fun x y => x + y) a b

/-- Elementwise array subtraction. -/
def subA (a b : Arr) : Arr := List.zipWith (fun x y => x - y) a b

/-- Elementwise array division, `a / b` in numpy. -/
def divA (a b : Arr) : Arr := List.zipWith (fun x y => x / y) a b

/-- Array-divided-by-scalar broadcast, `a / c` in numpy. -/
def divSc (a : Arr) (c : ℚ) : Arr := a.map (fun x => x / c)

/-- Array-plus-scalar broadcast, `a + c` in numpy. -/
def addSc (a : Arr) (c : ℚ) : Arr := a.map (fun x => x + c)

/-- Elementwise square, `a ** 2` in numpy. -/
def sqA (a : Arr) : Arr := a.map (fun x => x ^ 2)

/-- Elementwise square root, `np.sqrt a`, for an abstract scalar root `sq`. -/
def sqrtA (sq : ℚ → ℚ) (a : Arr) : Arr := a.map sq

/-- `np.zeros_like p`. -/
def zerosLike (a : Arr) : Arr := a.map (fun _ => 0)

/-- The optimizer state dict: `state["m"]` and `state["v"]`. -/
structure AdamWState where
  m : List Arr
  v : List Arr
deriving DecidableEq

/-- One iteration of the loop body of `adamw` for index `i`: given
`param, grad` and the current `m[i], v[i]`, returns
`(updated_param, new m[i], new v[i])`, exactly as the Python body computes
them (note the bias correction uses the freshly assigned moments). -/
def adamwStep (sq : ℚ → ℚ) (learning_rate beta1 beta2 epsilon weight_decay : ℚ)
    (t : ℕ) (param grad mi vi : Arr) : Arr × Arr × Arr :=
  let mi' := addA (smulA beta1 mi) (smulA (1 - beta1) grad)
  let vi' := addA (smulA beta2 vi) (smulA (1 - beta2) (sqA grad))
  let m_hat := divSc mi' (1 - beta1 ^ t)
  let v_hat := divSc vi' (1 - beta2 ^ t)
  let param_update :=
    addA (divA (smulA learning_rate m_hat) (addSc (sqrtA sq v_hat) epsilon))
      (smulA (learning_rate * weight_decay) param)
  (subA param param_update, mi', vi')

/-- The `for i, (param, grad) in enumerate(zip(params, grads))` loop: walks the
zipped list with index `i`, reading and writing `m[i]` and `v[i]` and
accumulating `updated_params` (in reverse; the Python `append` order is
restored by `reverse` at the end).  Reading past the end of `m` or `v` is
Python's IndexError, modelled as `none`. -/
def adamwLoop (sq : ℚ → ℚ) (learning_rate beta1 beta2 epsilon weight_decay : ℚ)
    (t : ℕ) :
    List (Arr × Arr) → ℕ → List Arr → List Arr → List Arr →
      Option (List Arr × List Arr × List Arr)
  | [], _, m, v, acc => some (acc.reverse, m, v)
  | (param, grad) :: rest, i, m, v, acc =>
    match m[i]?, v[i]? with
    | some mi, some vi =>
      let r := adamwStep sq learning_rate beta1 beta2 epsilon weight_decay t
        param grad mi vi
      adamwLoop sq learning_rate beta1 beta2 epsilon weight_decay t rest (i + 1)
        (m.set i r.2.1) (v.set i r.2.2) (r.1 :: acc)
    | _, _ => none

/-- The `adamw` function of `optimizers/functional/adamw.py`.  Default
arguments mirror the source (`beta1=0.9`, `beta2=0.999`, `epsilon=1e-8`,
`t=1`, `weight_decay=0.01`); `state=None` initializes both moment lists to
zeros shaped like `params`. -/
def adamw (sq : ℚ → ℚ) (params grads : List Arr) (learning_rate : ℚ)
    (state : Option AdamWState) (beta1 : ℚ := 9/10) (beta2 : ℚ := 999/1000)
    (epsilon : ℚ := 1/100000000) (t : ℕ := 1) (weight_decay : ℚ := 1/100) :
    Option (List Arr × AdamWState) :=
  let st : AdamWState :=
    match state with
    | none => ⟨params.map zerosLike, params.map zerosLike⟩
    | some s => s
  match adamwLoop sq learning_rate beta1 beta2 epsilon weight_decay t
      (params.zip grads) 0 st.m st.v [] with
  | some (ups, m', v') => some (ups, ⟨m', v'⟩)
  | none => none

/-! ### The update rule as the specification states it (§4.1, per scalar) -/

/-- Spec step 1: `m[i] = beta1 * m[i] + (1 - beta1) * grad[i]`. -/
def specM (beta1 g mi : ℚ) : ℚ := beta1 * mi + (1 - beta1) * g

/-- Spec step 2: `v[i] = beta2 * v[i] + (1 - beta2) * grad[i]^2`. -/
def specV (beta2 g vi : ℚ) : ℚ := beta2 * vi + (1 - beta2) * g ^ 2

/-- Spec steps 3-5: bias-corrected moments, the update
`learning_rate * m_hat / (sqrt(v_hat) + epsilon)
 + learning_rate * weight_decay * param[i]`,
and `updated_param[i] = param[i] - update`. -/
def specUpdatedParam (sq : ℚ → ℚ) (learning_rate beta1 beta2 epsilon weight_decay : ℚ)
    (t : ℕ) (p g mi vi : ℚ) : ℚ :=
  let m_hat := specM beta1 g mi / (1 - beta1 ^ t)
  let v_hat := specV beta2 g vi / (1 - beta2 ^ t)
  p - (learning_rate * m_hat / (sq v_hat + epsilon)
        + learning_rate * weight_decay * p)

/-! ### Characterization of the loop -/

/-- Pure, index-free description of what the loop computes on a zipped list of
`(param, grad)` pairs whose moment entries are `ms` and `vs`: the triple of
`updated_params`, new `m` prefix and new `v` prefix. -/
def runPairs (sq : ℚ → ℚ) (learning_rate beta1 beta2 epsilon weight_decay : ℚ)
    (t : ℕ) :
    List (Arr × Arr) → List Arr → List Arr → List Arr × List Arr × List Arr
  | (p, g) :: rest, mi :: ms, vi :: vs =>
    let r := adamwStep sq learning_rate beta1 beta2 epsilon weight_decay t
      p g mi vi
    let rec' := runPairs sq learning_rate beta1 beta2 epsilon weight_decay t
      rest ms vs
    (r.1 :: rec'.1, r.2.1 :: rec'.2.1, r.2.2 :: rec'.2.2)
  | _, _, _ => ([], [], [])

theorem set_append_length {α : Type} (pre : List α) (a : α) (suf : List α)
    (x : α) : (pre ++ a :: suf).set pre.length x = pre ++ x :: suf := by
  induction pre with
  | nil => rfl
  | cons b bs ih => simp [ih]

theorem getElem?_append_length {α : Type} (pre : List α) (a : α)
    (suf : List α) : (pre ++ a :: suf)[pre.length]? = some a := by
  induction pre with
  | nil => simp
  | cons b bs ih => simpa using ih

theorem adamwLoop_eq (sq : ℚ → ℚ)
    (learning_rate beta1 beta2 epsilon weight_decay : ℚ) (t : ℕ)
    (pairs : List (Arr × Arr)) :
    ∀ (mPre mSuf vPre vSuf acc : List Arr),
      vPre.length = mPre.length →
      pairs.length ≤ mSuf.length → pairs.length ≤ vSuf.length →
      adamwLoop sq learning_rate beta1 beta2 epsilon weight_decay t pairs
          mPre.length (mPre ++ mSuf) (vPre ++ vSuf) acc =
        some (acc.reverse ++
            (runPairs sq learning_rate beta1 beta2 epsilon weight_decay t
              pairs mSuf vSuf).1,
          mPre ++ (runPairs sq learning_rate beta1 beta2 epsilon weight_decay t
              pairs mSuf vSuf).2.1 ++ mSuf.drop pairs.length,
          vPre ++ (runPairs sq learning_rate beta1 beta2 epsilon weight_decay t
              pairs mSuf vSuf).2.2 ++ vSuf.drop pairs.length) := by
  induction pairs with
  | nil =>
    intro mPre mSuf vPre vSuf acc _ _ _
    simp [adamwLoop, runPairs]
  | cons pg rest ih =>
    intro mPre mSuf vPre vSuf acc hlen hm hv
    obtain ⟨p, g⟩ := pg
    cases mSuf with
    | nil => simp at hm
    | cons mi ms =>
      cases vSuf with
      | nil => simp at hv
      | cons vi vs =>
        have hvq : (vPre ++ vi :: vs)[mPre.length]? = some vi := by
          rw [← hlen, getElem?_append_length]
        have hvset : ∀ x : Arr,
            (vPre ++ vi :: vs).set mPre.length x = vPre ++ x :: vs := by
          intro x
          rw [← hlen, set_append_length]
        simp only [adamwLoop, getElem?_append_length, hvq, set_append_length,
          hvset]
        rw [show mPre.length + 1 = (mPre ++ [(adamwStep sq learning_rate beta1
              beta2 epsilon weight_decay t p g mi vi).2.1]).length by simp]
        rw [show mPre ++ (adamwStep sq learning_rate beta1 beta2 epsilon
              weight_decay t p g mi vi).2.1 :: ms =
            (mPre ++ [(adamwStep sq learning_rate beta1 beta2 epsilon
              weight_decay t p g mi vi).2.1]) ++ ms by simp]
        rw [show vPre ++ (adamwStep sq learning_rate beta1 beta2 epsilon
              weight_decay t p g mi vi).2.2 :: vs =
            (vPre ++ [(adamwStep sq learning_rate beta1 beta2 epsilon
              weight_decay t p g mi vi).2.2]) ++ vs by simp]
        rw [ih _ ms _ vs _ (by simp [hlen]) (by simpa using hm)
          (by simpa using hv)]
        simp [runPairs, List.append_assoc]

theorem getD_map_lt {α β : Type} (f : α → β) (a : List α) (j : ℕ)
    (h : j < a.length) (d : β) (e : α) :
    (a.map f).getD j d = f (a.getD j e) := by
  simp [List.getD_eq_getElem?_getD, List.getElem?_map,
    List.getElem?_eq_getElem h]

theorem getD_zipWith_lt {α β γ : Type} (f : α → β → γ) (a : List α)
    (b : List β) (j : ℕ) (ha : j < a.length) (hb : j < b.length) (d : γ)
    (e : α) (e' : β) :
    (List.zipWith f a b).getD j d = f (a.getD j e) (b.getD j e') := by
  simp [List.getD_eq_getElem?_getD, List.getElem?_zipWith,
    List.getElem?_eq_getElem ha, List.getElem?_eq_getElem hb]

theorem getD_zip_lt {α β : Type} (a : List α) (b : List β) (j : ℕ)
    (ha : j < a.length) (hb : j < b.length) (d : α × β) :
    (a.zip b).getD j d = (a.getD j d.1, b.getD j d.2) := by
  rw [List.zip_eq_zipWith, getD_zipWith_lt _ _ _ _ ha hb _ d.1 d.2]

/-- The full `adamw` call on an explicit state, rewritten through `runPairs`:
it succeeds exactly when the zipped parameter list is no longer than the
state's moment lists, the updated parameters are `runPairs`'s first component,
and the moments are `runPairs`'s prefixes followed by the untouched tails. -/
theorem adamw_some_eq (sq : ℚ → ℚ)
    (learning_rate beta1 beta2 epsilon weight_decay : ℚ) (t : ℕ)
    (params grads : List Arr) (st : AdamWState)
    (hm : (params.zip grads).length ≤ st.m.length)
    (hv : (params.zip grads).length ≤ st.v.length) :
    adamw sq params grads learning_rate (some st) beta1 beta2 epsilon t
        weight_decay =
      some ((runPairs sq learning_rate beta1 beta2 epsilon weight_decay t
          (params.zip grads) st.m st.v).1,
        ⟨(runPairs sq learning_rate beta1 beta2 epsilon weight_decay t
            (params.zip grads) st.m st.v).2.1 ++
          st.m.drop (params.zip grads).length,
          (runPairs sq learning_rate beta1 beta2 epsilon weight_decay t
            (params.zip grads) st.m st.v).2.2 ++
          st.v.drop (params.zip grads).length⟩) := by
  have h := adamwLoop_eq sq learning_rate beta1 beta2 epsilon weight_decay t
    (params.zip grads) [] st.m [] st.v [] rfl hm hv
  simp only [List.nil_append, List.reverse_nil, List.length_nil] at h
  simp only [adamw, h]

/-- Lengths of the three `runPairs` components, when the moment lists are long
enough. -/
theorem runPairs_length (sq : ℚ → ℚ)
    (learning_rate beta1 beta2 epsilon weight_decay : ℚ) (t : ℕ) :
    ∀ (pairs : List (Arr × Arr)) (ms vs : List Arr),
      pairs.length ≤ ms.length → pairs.length ≤ vs.length →
      (runPairs sq learning_rate beta1 beta2 epsilon weight_decay t
          pairs ms vs).1.length = pairs.length ∧
      (runPairs sq learning_rate beta1 beta2 epsilon weight_decay t
          pairs ms vs).2.1.length = pairs.length ∧
      (runPairs sq learning_rate beta1 beta2 epsilon weight_decay t
          pairs ms vs).2.2.length = pairs.length := by
  intro pairs
  induction pairs with
  | nil => intro ms vs _ _; simp [runPairs]
  | cons pg rest ih =>
    intro ms vs hm hv
    obtain ⟨p, g⟩ := pg
    cases ms with
    | nil => simp at hm
    | cons mi ms' =>
      cases vs with
      | nil => simp at hv
      | cons vi vs' =>
        have := ih ms' vs' (by simpa using hm) (by simpa using hv)
        simp [runPairs, this.1, this.2.1, this.2.2]

/-- Elementwise access to the three `runPairs` components: entry `i` is
`adamwStep` applied to the `i`-th pair and the `i`-th moments. -/
theorem runPairs_getD (sq : ℚ → ℚ)
    (learning_rate beta1 beta2 epsilon weight_decay : ℚ) (t : ℕ) :
    ∀ (pairs : List (Arr × Arr)) (ms vs : List Arr) (i : ℕ),
      i < pairs.length → pairs.length ≤ ms.length →
      pairs.length ≤ vs.length →
      (runPairs sq learning_rate beta1 beta2 epsilon weight_decay t
          pairs ms vs).1.getD i [] =
        (adamwStep sq learning_rate beta1 beta2 epsilon weight_decay t
          (pairs.getD i ([], [])).1 (pairs.getD i ([], [])).2
          (ms.getD i []) (vs.getD i [])).1 ∧
      (runPairs sq learning_rate beta1 beta2 epsilon weight_decay t
          pairs ms vs).2.1.getD i [] =
        (adamwStep sq learning_rate beta1 beta2 epsilon weight_decay t
          (pairs.getD i ([], [])).1 (pairs.getD i ([], [])).2
          (ms.getD i []) (vs.getD i [])).2.1 ∧
      (runPairs sq learning_rate beta1 beta2 epsilon weight_decay t
          pairs ms vs).2.2.getD i [] =
        (adamwStep sq learning_rate beta1 beta2 epsilon weight_decay t
          (pairs.getD i ([], [])).1 (pairs.getD i ([], [])).2
          (ms.getD i []) (vs.getD i [])).2.2 := by
  intro pairs
  induction pairs with
  | nil => intro ms vs i hi _ _; simp at hi
  | cons pg rest ih =>
    intro ms vs i hi hm hv
    obtain ⟨p, g⟩ := pg
    cases ms with
    | nil => simp at hm
    | cons mi ms' =>
      cases vs with
      | nil => simp at hv
      | cons vi vs' =>
        cases i with
        | zero => simp [runPairs]
        | succ i' =>
          have := ih ms' vs' i' (by simpa using hi) (by simpa using hm)
            (by simpa using hv)
          simpa [runPairs] using this

/-- Lengths of `adamwStep`'s three components equal the parameter's length
when the gradient and moments have the parameter's length. -/
theorem adamwStep_length (sq : ℚ → ℚ)
    (learning_rate beta1 beta2 epsilon weight_decay : ℚ) (t : ℕ)
    (p g mi vi : Arr) (hg : g.length = p.length) (hm : mi.length = p.length)
    (hv : vi.length = p.length) :
    (adamwStep sq learning_rate beta1 beta2 epsilon weight_decay t
        p g mi vi).1.length = p.length ∧
    (adamwStep sq learning_rate beta1 beta2 epsilon weight_decay t
        p g mi vi).2.1.length = p.length ∧
    (adamwStep sq learning_rate beta1 beta2 epsilon weight_decay t
        p g mi vi).2.2.length = p.length := by
  simp [adamwStep, addA, subA, divA, divSc, addSc, smulA, sqA, sqrtA,
    hg, hm, hv]

/-- Entry `j` of `adamwStep`'s three components is exactly the specification's
scalar update rule applied to the `j`-th entries of the inputs. -/
theorem adamwStep_getD (sq : ℚ → ℚ)
    (learning_rate beta1 beta2 epsilon weight_decay : ℚ) (t : ℕ)
    (p g mi vi : Arr) (j : ℕ) (hg : g.length = p.length)
    (hm : mi.length = p.length) (hv : vi.length = p.length)
    (hj : j < p.length) :
    (adamwStep sq learning_rate beta1 beta2 epsilon weight_decay t
        p g mi vi).1.getD j 0 =
      specUpdatedParam sq learning_rate beta1 beta2 epsilon weight_decay t
        (p.getD j 0) (g.getD j 0) (mi.getD j 0) (vi.getD j 0) ∧
    (adamwStep sq learning_rate beta1 beta2 epsilon weight_decay t
        p g mi vi).2.1.getD j 0 =
      specM beta1 (g.getD j 0) (mi.getD j 0) ∧
    (adamwStep sq learning_rate beta1 beta2 epsilon weight_decay t
        p g mi vi).2.2.getD j 0 =
      specV beta2 (g.getD j 0) (vi.getD j 0) := by
  have hg' : j < g.length := by omega
  have hm' : j < mi.length := by omega
  have hv' : j < vi.length := by omega
  have em : (addA (smulA beta1 mi) (smulA (1 - beta1) g)).getD j 0 =
      specM beta1 (g.getD j 0) (mi.getD j 0) := by
    rw [addA, getD_zipWith_lt _ _ _ _
      (by simp [smulA]; omega) (by simp [smulA]; omega) _ 0 0]
    rw [smulA, getD_map_lt _ _ _ hm' _ 0, smulA, getD_map_lt _ _ _ hg' _ 0]
    rfl
  have ev : (addA (smulA beta2 vi) (smulA (1 - beta2) (sqA g))).getD j 0 =
      specV beta2 (g.getD j 0) (vi.getD j 0) := by
    rw [addA, getD_zipWith_lt _ _ _ _
      (by simp [smulA]; omega) (by simp [smulA, sqA]; omega) _ 0 0]
    rw [smulA, getD_map_lt _ _ _ hv' _ 0]
    rw [show smulA (1 - beta2) (sqA g) = (sqA g).map (fun x => (1 - beta2) * x)
      from rfl]
    rw [getD_map_lt _ _ _ (by simp [sqA]; omega) _ 0]
    rw [sqA, getD_map_lt _ _ _ hg' _ 0]
    rfl
  refine ⟨?_, ?_, ?_⟩
  · show (subA p _).getD j 0 = _
    rw [subA, getD_zipWith_lt _ _ _ _ hj
      (by simp [addA, divA, smulA, divSc, addSc, sqrtA, sqA]; omega) _ 0 0]
    rw [addA, getD_zipWith_lt _ _ _ _
      (by simp [addA, divA, smulA, divSc, addSc, sqrtA, sqA]; omega)
      (by simp [smulA]; omega) _ 0 0]
    rw [divA, getD_zipWith_lt _ _ _ _
      (by simp [addA, smulA, divSc, addSc, sqA]; omega)
      (by simp [addA, addSc, sqrtA, divSc, smulA, sqA]; omega) _ 0 0]
    rw [smulA, getD_map_lt _ _ _
      (by simp [addA, divSc, smulA, sqA]; omega) _ 0]
    rw [divSc, getD_map_lt _ _ _
      (by simp [addA, smulA, sqA]; omega) _ 0]
    rw [addSc, getD_map_lt _ _ _
      (by simp [addA, sqrtA, divSc, smulA, sqA]; omega) _ 0]
    rw [sqrtA, getD_map_lt _ _ _
      (by simp [addA, divSc, smulA, sqA]; omega) _ 0]
    rw [divSc, getD_map_lt _ _ _
      (by simp [addA, smulA, sqA]; omega) _ 0]
    rw [show smulA (learning_rate * weight_decay) p =
      p.map (fun x => learning_rate * weight_decay * x) from rfl]
    rw [getD_map_lt _ _ _ hj _ 0]
    rw [em, ev]
    rfl
  · exact em
  · exact ev

/-! ### Small facts about `zerosLike` and out-of-range access -/

theorem zerosLike_eq_replicate (a : Arr) :
    zerosLike a = List.replicate a.length 0 := by
  simp [zerosLike]

/-! ### C7 -/

/-- C7: a call with empty `params` and empty `grads` returns the empty
updated-parameter list together with the state, raises no error, and leaves
the state's contents unchanged (both for an explicit state and for
`state = None`). -/
theorem adamw_empty_input (sq : ℚ → ℚ)
    (learning_rate beta1 beta2 epsilon weight_decay : ℚ) (t : ℕ)
    (st : AdamWState) :
    adamw sq [] [] learning_rate (some st) beta1 beta2 epsilon t
        weight_decay = some ([], st) ∧
    adamw sq [] [] learning_rate none beta1 beta2 epsilon t
        weight_decay = some ([], ⟨[], []⟩) :=
  ⟨rfl, rfl⟩

/-! ### C6 -/

/-- C6: a call with `state = None` behaves exactly as a call whose state holds
one all-zero moment array per parameter (`m` and `v` alike); moreover that
initial moment list has one entry per parameter and each entry is the all-zero
array of its parameter's shape.  In this pure embedding the initial state is a
function of `params` alone, so no allocation is shared across calls. -/
theorem adamw_none_state_initializes_zeros (sq : ℚ → ℚ)
    (params grads : List Arr)
    (learning_rate beta1 beta2 epsilon weight_decay : ℚ) (t : ℕ) :
    adamw sq params grads learning_rate none beta1 beta2 epsilon t
        weight_decay =
      adamw sq params grads learning_rate
        (some ⟨params.map zerosLike, params.map zerosLike⟩)
        beta1 beta2 epsilon t weight_decay ∧
    (params.map zerosLike).length = params.length ∧
    ∀ i : ℕ, (params.map zerosLike).getD i [] =
      List.replicate ((params.getD i []).length) 0 := by
  refine ⟨rfl, by simp, ?_⟩
  intro i
  by_cases h : i < params.length
  · rw [getD_map_lt _ _ _ h _ [], zerosLike_eq_replicate]
  · rw [List.getD_eq_getElem?_getD, List.getD_eq_getElem?_getD]
    rw [List.getElem?_eq_none (by simpa using h),
      List.getElem?_eq_none (by omega)]
    rfl

/-! ### C9 -/

/-- C9: determinism — two calls with identical inputs and states of identical
contents produce identical outputs; the embedding of the source is a pure
function of its arguments (the source reads no randomness and tracks no
hidden iteration count). -/
theorem adamw_deterministic (sq : ℚ → ℚ) (params grads : List Arr)
    (learning_rate beta1 beta2 epsilon weight_decay : ℚ) (t : ℕ)
    (st1 st2 : AdamWState) (hm : st1.m = st2.m) (hv : st1.v = st2.v) :
    adamw sq params grads learning_rate (some st1) beta1 beta2 epsilon t
        weight_decay =
      adamw sq params grads learning_rate (some st2) beta1 beta2 epsilon t
        weight_decay := by
  obtain ⟨m1, v1⟩ := st1
  obtain ⟨m2, v2⟩ := st2
  simp only at hm hv
  subst hm
  subst hv
  rfl

/-- Witness for C9 at a concrete input. -/
theorem adamw_deterministic_witness :
    ((⟨[[0]], [[0]]⟩ : AdamWState).m = (⟨[[0]], [[0]]⟩ : AdamWState).m) ∧
    adamw (fun x => x) [[1]] [[1]] 1 (some ⟨[[0]], [[0]]⟩) (1/2) (1/2) 1 1 0 =
      adamw (fun x => x) [[1]] [[1]] 1 (some ⟨[[0]], [[0]]⟩) (1/2) (1/2) 1
        1 0 :=
  ⟨rfl, adamw_deterministic (fun x => x) [[1]] [[1]] 1 (1/2) (1/2) 1 0 1
    ⟨[[0]], [[0]]⟩ ⟨[[0]], [[0]]⟩ rfl rfl⟩

/-! ### The equal-length (valid-shape) case, fully characterized -/

/-- On inputs whose `grads`, `state.m`, `state.v` all have the length of
`params`, `adamw` returns, and entry `i` of each output component is
`adamwStep` on the `i`-th parameter, gradient and moments. -/
theorem adamw_full_eq (sq : ℚ → ℚ)
    (learning_rate beta1 beta2 epsilon weight_decay : ℚ) (t : ℕ)
    (params grads : List Arr) (st : AdamWState)
    (hg : grads.length = params.length)
    (hm : st.m.length = params.length) (hv : st.v.length = params.length) :
    ∃ out st', adamw sq params grads learning_rate (some st) beta1 beta2
        epsilon t weight_decay = some (out, st') ∧
      out.length = params.length ∧ st'.m.length = params.length ∧
      st'.v.length = params.length ∧
      ∀ i : ℕ, i < params.length →
        out.getD i [] = (adamwStep sq learning_rate beta1 beta2 epsilon
          weight_decay t (params.getD i []) (grads.getD i [])
          (st.m.getD i []) (st.v.getD i [])).1 ∧
        st'.m.getD i [] = (adamwStep sq learning_rate beta1 beta2 epsilon
          weight_decay t (params.getD i []) (grads.getD i [])
          (st.m.getD i []) (st.v.getD i [])).2.1 ∧
        st'.v.getD i [] = (adamwStep sq learning_rate beta1 beta2 epsilon
          weight_decay t (params.getD i []) (grads.getD i [])
          (st.m.getD i []) (st.v.getD i [])).2.2 := by
  have hzip : (params.zip grads).length = params.length := by
    simp [List.length_zip, hg]
  have hm' : (params.zip grads).length ≤ st.m.length := by omega
  have hv' : (params.zip grads).length ≤ st.v.length := by omega
  have hdm : st.m.drop (params.zip grads).length = [] :=
    List.drop_eq_nil_of_le (by omega)
  have hdv : st.v.drop (params.zip grads).length = [] :=
    List.drop_eq_nil_of_le (by omega)
  have hlen := runPairs_length sq learning_rate beta1 beta2 epsilon
    weight_decay t (params.zip grads) st.m st.v hm' hv'
  refine ⟨_, _, by rw [adamw_some_eq sq learning_rate beta1 beta2 epsilon
    weight_decay t params grads st hm' hv'], ?_, ?_, ?_, ?_⟩
  · rw [hlen.1, hzip]
  · simp only [hdm, List.append_nil]
    rw [hlen.2.1, hzip]
  · simp only [hdv, List.append_nil]
    rw [hlen.2.2, hzip]
  · intro i hi
    have hi' : i < (params.zip grads).length := by omega
    have hpg := getD_zip_lt params grads i hi (by omega) ([], [])
    have hget := runPairs_getD sq learning_rate beta1 beta2 epsilon
      weight_decay t (params.zip grads) st.m st.v i hi' hm' hv'
    simp only [hdm, hdv, List.append_nil]
    rw [hget.1, hget.2.1, hget.2.2, hpg]
    exact ⟨rfl, rfl, rfl⟩

/-! ### C2, counterexample and actual behavior -/

/-- C2 counterexample: at `params=[[1]]`, `grads=[[1]]`, `lr=1`,
`state={m:[[0]],v:[[0]]}`, `beta1=beta2=1/2`, `epsilon=1`, `t=0`,
`weight_decay=0`, the call does not raise: it returns a result, and the
state's first moment has been mutated from `[[0]]` to `[[1/2]]` by the EMA
update (which does not involve the zero bias-correction denominator). -/
theorem adamw_t_zero_counterexample :
    (adamw (fun x => x) [[1]] [[1]] 1 (some ⟨[[0]], [[0]]⟩) (1/2) (1/2) 1 0
        0).map (fun r => r.2.m) = some [[1/2]] ∧
    [[(1:ℚ)/2]] ≠ [[(0:ℚ)]] := by
  constructor
  · simp [adamw, adamwLoop, adamwStep, addA, smulA, sqA, divSc, divA, addSc,
      sqrtA, subA]
    norm_num
  · simp

/-- C2 as the code actually behaves: `t = 0` is not rejected — the call
returns a full result, the moments are still updated by the EMA rule, and the
bias-correction denominator `1 - beta1^0` is `0` (so the returned parameters
divide by zero; in numpy this propagates non-finite values rather than
raising). -/
theorem adamw_t_zero_no_rejection (sq : ℚ → ℚ)
    (learning_rate beta1 beta2 epsilon weight_decay : ℚ)
    (params grads : List Arr) (st : AdamWState)
    (hg : grads.length = params.length)
    (hm : st.m.length = params.length) (hv : st.v.length = params.length) :
    ∃ out st', adamw sq params grads learning_rate (some st) beta1 beta2
        epsilon 0 weight_decay = some (out, st') ∧
      out.length = params.length ∧
      1 - beta1 ^ (0 : ℕ) = 0 ∧
      ∀ i j : ℕ, i < params.length →
        (grads.getD i []).length = (params.getD i []).length →
        (st.m.getD i []).length = (params.getD i []).length →
        (st.v.getD i []).length = (params.getD i []).length →
        j < (params.getD i []).length →
        (st'.m.getD i []).getD j 0 =
          specM beta1 ((grads.getD i []).getD j 0)
            ((st.m.getD i []).getD j 0) ∧
        (st'.v.getD i []).getD j 0 =
          specV beta2 ((grads.getD i []).getD j 0)
            ((st.v.getD i []).getD j 0) := by
  obtain ⟨out, st', heq, hlen, _, _, hget⟩ := adamw_full_eq sq learning_rate
    beta1 beta2 epsilon weight_decay 0 params grads st hg hm hv
  refine ⟨out, st', heq, hlen, by simp, ?_⟩
  intro i j hi hsg hsm hsv hj
  have hstep := adamwStep_getD sq learning_rate beta1 beta2 epsilon
    weight_decay 0 (params.getD i []) (grads.getD i []) (st.m.getD i [])
    (st.v.getD i []) j hsg hsm hsv hj
  refine ⟨?_, ?_⟩
  · rw [(hget i hi).2.1, hstep.2.1]
  · rw [(hget i hi).2.2, hstep.2.2]

/-! ### Arithmetic facts used to discharge witness hypotheses -/

theorem q_half_pos : (0 : ℚ) < 1/2 := by norm_num

theorem q_half_lt_one : (1/2 : ℚ) < 1 := by norm_num

theorem getD_zerosLike (a : Arr) (j : ℕ) : (zerosLike a).getD j 0 = 0 := by
  induction a generalizing j with
  | nil => simp [zerosLike]
  | cons x xs ih =>
    cases j with
    | zero => simp [zerosLike]
    | succ j' => simpa [zerosLike] using ih j'

/-! ### C1 -/

/-- C1: for every call with `N ≥ 1` parameters, matching-shape gradients and
state, and hyperparameters in the valid domain, `adamw` computes,
independently for each index `i` (elementwise at each entry `j`), exactly the
spec's update rule: `m[i] = beta1*m[i] + (1-beta1)*grad[i]`,
`v[i] = beta2*v[i] + (1-beta2)*grad[i]^2`, `m_hat = m[i]/(1-beta1^t)`,
`v_hat = v[i]/(1-beta2^t)`, and
`updated_params[i] = params[i] - (learning_rate * m_hat / (sqrt(v_hat)
+ epsilon) + learning_rate * weight_decay * params[i])`. -/
theorem adamw_update_rule_matches_spec (sq : ℚ → ℚ)
    (learning_rate beta1 beta2 epsilon weight_decay : ℚ) (t : ℕ)
    (params grads : List Arr) (st : AdamWState)
    (hN : 1 ≤ params.length)
    (hg : grads.length = params.length)
    (hm : st.m.length = params.length) (hv : st.v.length = params.length)
    (hshape : ∀ i : ℕ, i < params.length →
      (grads.getD i []).length = (params.getD i []).length ∧
      (st.m.getD i []).length = (params.getD i []).length ∧
      (st.v.getD i []).length = (params.getD i []).length)
    (hb1 : 0 < beta1) (hb1' : beta1 < 1) (hb2 : 0 < beta2) (hb2' : beta2 < 1)
    (heps : 0 < epsilon) (hlr : 0 ≤ learning_rate) (hwd : 0 ≤ weight_decay)
    (ht : 1 ≤ t) :
    ∃ out st', adamw sq params grads learning_rate (some st) beta1 beta2
        epsilon t weight_decay = some (out, st') ∧
      ∀ i j : ℕ, i < params.length → j < (params.getD i []).length →
        (out.getD i []).getD j 0 =
          specUpdatedParam sq learning_rate beta1 beta2 epsilon weight_decay t
            ((params.getD i []).getD j 0) ((grads.getD i []).getD j 0)
            ((st.m.getD i []).getD j 0) ((st.v.getD i []).getD j 0) ∧
        (st'.m.getD i []).getD j 0 =
          specM beta1 ((grads.getD i []).getD j 0)
            ((st.m.getD i []).getD j 0) ∧
        (st'.v.getD i []).getD j 0 =
          specV beta2 ((grads.getD i []).getD j 0)
            ((st.v.getD i []).getD j 0) := by
  obtain ⟨out, st', heq, _, _, _, hget⟩ := adamw_full_eq sq learning_rate
    beta1 beta2 epsilon weight_decay t params grads st hg hm hv
  refine ⟨out, st', heq, ?_⟩
  intro i j hi hj
  obtain ⟨hsg, hsm, hsv⟩ := hshape i hi
  have hstep := adamwStep_getD sq learning_rate beta1 beta2 epsilon
    weight_decay t (params.getD i []) (grads.getD i []) (st.m.getD i [])
    (st.v.getD i []) j hsg hsm hsv hj
  exact ⟨by rw [(hget i hi).1, hstep.1], by rw [(hget i hi).2.1, hstep.2.1],
    by rw [(hget i hi).2.2, hstep.2.2]⟩

/-- Witness for C1 at a concrete valid input. -/
theorem adamw_update_rule_matches_spec_witness :
    (1 ≤ ([[(1:ℚ)]] : List Arr).length) ∧
    (∃ out st', adamw (fun x => x) [[(1:ℚ)]] [[1]] 1 (some ⟨[[0]], [[0]]⟩)
        (1/2) (1/2) 1 1 0 = some (out, st') ∧
      ∀ i j : ℕ, i < ([[(1:ℚ)]] : List Arr).length →
        j < (([[(1:ℚ)]] : List Arr).getD i []).length →
        (out.getD i []).getD j 0 =
          specUpdatedParam (fun x => x) 1 (1/2) (1/2) 1 0 1
            ((([[(1:ℚ)]] : List Arr).getD i []).getD j 0)
            ((([[(1:ℚ)]] : List Arr).getD i []).getD j 0)
            ((([[(0:ℚ)]] : List Arr).getD i []).getD j 0)
            ((([[(0:ℚ)]] : List Arr).getD i []).getD j 0) ∧
        (st'.m.getD i []).getD j 0 =
          specM (1/2) ((([[(1:ℚ)]] : List Arr).getD i []).getD j 0)
            ((([[(0:ℚ)]] : List Arr).getD i []).getD j 0) ∧
        (st'.v.getD i []).getD j 0 =
          specV (1/2) ((([[(1:ℚ)]] : List Arr).getD i []).getD j 0)
            ((([[(0:ℚ)]] : List Arr).getD i []).getD j 0)) :=
  ⟨by decide, adamw_update_rule_matches_spec (fun x => x) 1 (1/2) (1/2) 1 0 1
    [[1]] [[1]] ⟨[[0]], [[0]]⟩ (by decide) rfl rfl rfl (by decide)
    q_half_pos q_half_lt_one q_half_pos q_half_lt_one zero_lt_one zero_le_one
    le_rfl le_rfl⟩

/-! ### C8 -/

/-- C8: for all valid inputs (matching lengths and elementwise shapes, valid
hyperparameters), every returned `updated_params[i]` has exactly the shape of
`params[i]`, and the returned state's `m[i]` and `v[i]` likewise retain the
shape of `params[i]`. -/
theorem adamw_shape_preservation (sq : ℚ → ℚ)
    (learning_rate beta1 beta2 epsilon weight_decay : ℚ) (t : ℕ)
    (params grads : List Arr) (st : AdamWState)
    (hg : grads.length = params.length)
    (hm : st.m.length = params.length) (hv : st.v.length = params.length)
    (hshape : ∀ i : ℕ, i < params.length →
      (grads.getD i []).length = (params.getD i []).length ∧
      (st.m.getD i []).length = (params.getD i []).length ∧
      (st.v.getD i []).length = (params.getD i []).length)
    (hb1 : 0 < beta1) (hb1' : beta1 < 1) (hb2 : 0 < beta2) (hb2' : beta2 < 1)
    (heps : 0 < epsilon) (hlr : 0 ≤ learning_rate) (hwd : 0 ≤ weight_decay)
    (ht : 1 ≤ t) :
    ∃ out st', adamw sq params grads learning_rate (some st) beta1 beta2
        epsilon t weight_decay = some (out, st') ∧
      out.length = params.length ∧ st'.m.length = params.length ∧
      st'.v.length = params.length ∧
      ∀ i : ℕ, i < params.length →
        (out.getD i []).length = (params.getD i []).length ∧
        (st'.m.getD i []).length = (params.getD i []).length ∧
        (st'.v.getD i []).length = (params.getD i []).length := by
  obtain ⟨out, st', heq, hl1, hl2, hl3, hget⟩ := adamw_full_eq sq
    learning_rate beta1 beta2 epsilon weight_decay t params grads st hg hm hv
  refine ⟨out, st', heq, hl1, hl2, hl3, ?_⟩
  intro i hi
  obtain ⟨hsg, hsm, hsv⟩ := hshape i hi
  have hstep := adamwStep_length sq learning_rate beta1 beta2 epsilon
    weight_decay t (params.getD i []) (grads.getD i []) (st.m.getD i [])
    (st.v.getD i []) hsg hsm hsv
  exact ⟨by rw [(hget i hi).1, hstep.1], by rw [(hget i hi).2.1, hstep.2.1],
    by rw [(hget i hi).2.2, hstep.2.2]⟩

/-- Witness for C8 at a concrete valid input. -/
theorem adamw_shape_preservation_witness :
    (([[(1:ℚ)]] : List Arr).length = ([[(1:ℚ)]] : List Arr).length) ∧
    (∃ out st', adamw (fun x => x) [[(1:ℚ)]] [[1]] 1 (some ⟨[[0]], [[0]]⟩)
        (1/2) (1/2) 1 1 0 = some (out, st') ∧
      out.length = ([[(1:ℚ)]] : List Arr).length ∧
      st'.m.length = ([[(1:ℚ)]] : List Arr).length ∧
      st'.v.length = ([[(1:ℚ)]] : List Arr).length ∧
      ∀ i : ℕ, i < ([[(1:ℚ)]] : List Arr).length →
        (out.getD i []).length = (([[(1:ℚ)]] : List Arr).getD i []).length ∧
        (st'.m.getD i []).length =
          (([[(1:ℚ)]] : List Arr).getD i []).length ∧
        (st'.v.getD i []).length =
          (([[(1:ℚ)]] : List Arr).getD i []).length) :=
  ⟨rfl, adamw_shape_preservation (fun x => x) 1 (1/2) (1/2) 1 0 1
    [[1]] [[1]] ⟨[[0]], [[0]]⟩ rfl rfl rfl (by decide)
    q_half_pos q_half_lt_one q_half_pos q_half_lt_one zero_lt_one zero_le_one
    le_rfl le_rfl⟩

/-! ### C5 -/

/-- C5: if every gradient entry is exactly zero (with the gradient list shaped
like `params`) and the prior moments `m` and `v` are all zero, then for every
index the returned parameter is exactly
`params[i] - learning_rate * weight_decay * params[i]` — pure decoupled decay,
no adaptive term — for any `t ≥ 1` and valid hyperparameters (the hypothesis
`sq 0 = 0` records that `np.sqrt 0 = 0`). -/
theorem adamw_zero_grad_pure_decay (sq : ℚ → ℚ)
    (learning_rate beta1 beta2 epsilon weight_decay : ℚ) (t : ℕ)
    (params : List Arr) (st : AdamWState)
    (hsq : sq 0 = 0)
    (hm : st.m = params.map zerosLike) (hv : st.v = params.map zerosLike)
    (hb1 : 0 < beta1) (hb1' : beta1 < 1) (hb2 : 0 < beta2) (hb2' : beta2 < 1)
    (heps : 0 < epsilon) (hlr : 0 ≤ learning_rate) (hwd : 0 ≤ weight_decay)
    (ht : 1 ≤ t) :
    ∃ out st', adamw sq params (params.map zerosLike) learning_rate (some st)
        beta1 beta2 epsilon t weight_decay = some (out, st') ∧
      ∀ i j : ℕ, i < params.length → j < (params.getD i []).length →
        (out.getD i []).getD j 0 =
          (params.getD i []).getD j 0 -
            learning_rate * weight_decay * ((params.getD i []).getD j 0) := by
  obtain ⟨out, st', heq, _, _, _, hget⟩ := adamw_full_eq sq learning_rate
    beta1 beta2 epsilon weight_decay t params (params.map zerosLike) st
    (by simp) (by simp [hm]) (by simp [hv])
  refine ⟨out, st', heq, ?_⟩
  intro i j hi hj
  have hgz : (params.map zerosLike).getD i [] = zerosLike (params.getD i []) :=
    getD_map_lt _ _ _ hi _ []
  have hmz : st.m.getD i [] = zerosLike (params.getD i []) := by
    rw [hm, hgz]
  have hvz : st.v.getD i [] = zerosLike (params.getD i []) := by
    rw [hv, hgz]
  have hlz : (zerosLike (params.getD i [])).length =
      (params.getD i []).length := by simp [zerosLike]
  have hstep := adamwStep_getD sq learning_rate beta1 beta2 epsilon
    weight_decay t (params.getD i []) (zerosLike (params.getD i []))
    (zerosLike (params.getD i [])) (zerosLike (params.getD i [])) j
    hlz hlz hlz hj
  rw [(hget i hi).1, hgz, hmz, hvz, hstep.1, getD_zerosLike]
  simp [specUpdatedParam, specM, specV, hsq]

/-- Witness for C5 at a concrete input (`sq` is the zero function, matching
`np.sqrt 0 = 0` at the only point it is applied to). -/
theorem adamw_zero_grad_pure_decay_witness :
    ((fun _ : ℚ => (0:ℚ)) 0 = 0) ∧
    (∃ out st', adamw (fun _ => 0) [[(1:ℚ)]]
        (([[(1:ℚ)]] : List Arr).map zerosLike) 1 (some ⟨[[0]], [[0]]⟩)
        (1/2) (1/2) 1 1 1 = some (out, st') ∧
      ∀ i j : ℕ, i < ([[(1:ℚ)]] : List Arr).length →
        j < (([[(1:ℚ)]] : List Arr).getD i []).length →
        (out.getD i []).getD j 0 =
          (([[(1:ℚ)]] : List Arr).getD i []).getD j 0 -
            1 * 1 * ((([[(1:ℚ)]] : List Arr).getD i []).getD j 0)) :=
  ⟨rfl, adamw_zero_grad_pure_decay (fun _ => 0) 1 (1/2) (1/2) 1 1 1
    [[1]] ⟨[[0]], [[0]]⟩ rfl rfl rfl
    q_half_pos q_half_lt_one q_half_pos q_half_lt_one zero_lt_one zero_le_one
    zero_le_one le_rfl⟩

/-- Witness for the amended C2 (`adamw_t_zero_no_rejection`) at a concrete
input. -/
theorem adamw_t_zero_no_rejection_witness :
    (([[(1:ℚ)]] : List Arr).length = ([[(1:ℚ)]] : List Arr).length) ∧
    (∃ out st', adamw (fun x => x) [[(1:ℚ)]] [[1]] 1 (some ⟨[[0]], [[0]]⟩)
        (1/2) (1/2) 1 0 0 = some (out, st') ∧
      out.length = ([[(1:ℚ)]] : List Arr).length ∧
      1 - (1/2 : ℚ) ^ (0 : ℕ) = 0 ∧
      ∀ i j : ℕ, i < ([[(1:ℚ)]] : List Arr).length →
        (([[(1:ℚ)]] : List Arr).getD i []).length =
          (([[(1:ℚ)]] : List Arr).getD i []).length →
        (([[(0:ℚ)]] : List Arr).getD i []).length =
          (([[(1:ℚ)]] : List Arr).getD i []).length →
        (([[(0:ℚ)]] : List Arr).getD i []).length =
          (([[(1:ℚ)]] : List Arr).getD i []).length →
        j < (([[(1:ℚ)]] : List Arr).getD i []).length →
        (st'.m.getD i []).getD j 0 =
          specM (1/2) ((([[(1:ℚ)]] : List Arr).getD i []).getD j 0)
            ((([[(0:ℚ)]] : List Arr).getD i []).getD j 0) ∧
        (st'.v.getD i []).getD j 0 =
          specV (1/2) ((([[(1:ℚ)]] : List Arr).getD i []).getD j 0)
            ((([[(0:ℚ)]] : List Arr).getD i []).getD j 0)) :=
  ⟨rfl, adamw_t_zero_no_rejection (fun x => x) 1 (1/2) (1/2) 1 0
    [[1]] [[1]] ⟨[[0]], [[0]]⟩ rfl rfl rfl⟩

/-! ### C10 -/

theorem zip_take_length {α β : Type} :
    ∀ (as : List α) (bs : List β), as.zip (bs.take as.length) = as.zip bs
  | [], _ => by simp
  | _ :: _, [] => by simp
  | a :: as, b :: bs => by simp [zip_take_length as bs]

/-- C10: `zip` truncation — with a state whose moment lists match `params` in
length, a call whose `grads` is shorter (or longer) than `params` raises no
error: it returns `min (len params) (len grads)` updated parameters, the
moment entries past that point are untouched, and only the first
`len params` gradients are ever consumed (`grads` may be replaced by
`grads.take params.length` without changing the call). -/
theorem adamw_zip_truncates (sq : ℚ → ℚ)
    (learning_rate beta1 beta2 epsilon weight_decay : ℚ) (t : ℕ)
    (params grads : List Arr) (st : AdamWState)
    (hm : st.m.length = params.length) (hv : st.v.length = params.length) :
    ∃ out st', adamw sq params grads learning_rate (some st) beta1 beta2
        epsilon t weight_decay = some (out, st') ∧
      out.length = min params.length grads.length ∧
      (∀ i : ℕ, min params.length grads.length ≤ i →
        st'.m[i]? = st.m[i]? ∧ st'.v[i]? = st.v[i]?) ∧
      adamw sq params grads learning_rate (some st) beta1 beta2 epsilon t
          weight_decay =
        adamw sq params (grads.take params.length) learning_rate (some st)
          beta1 beta2 epsilon t weight_decay := by
  have hzip : (params.zip grads).length = min params.length grads.length := by
    simp [List.length_zip]
  have hm' : (params.zip grads).length ≤ st.m.length := by omega
  have hv' : (params.zip grads).length ≤ st.v.length := by omega
  have hlen := runPairs_length sq learning_rate beta1 beta2 epsilon
    weight_decay t (params.zip grads) st.m st.v hm' hv'
  refine ⟨_, _, adamw_some_eq sq learning_rate beta1 beta2 epsilon
    weight_decay t params grads st hm' hv', ?_, ?_, ?_⟩
  · rw [hlen.1, hzip]
  · intro i hi
    constructor
    · show ((runPairs sq learning_rate beta1 beta2 epsilon weight_decay t
        (params.zip grads) st.m st.v).2.1 ++
          st.m.drop (params.zip grads).length)[i]? = st.m[i]?
      rw [List.getElem?_append_right (by omega), List.getElem?_drop]
      congr 1
      rw [hlen.2.1]
      omega
    · show ((runPairs sq learning_rate beta1 beta2 epsilon weight_decay t
        (params.zip grads) st.m st.v).2.2 ++
          st.v.drop (params.zip grads).length)[i]? = st.v[i]?
      rw [List.getElem?_append_right (by omega), List.getElem?_drop]
      congr 1
      rw [hlen.2.2]
      omega
  · simp only [adamw]
    rw [zip_take_length]

/-- Witness for C10 at a concrete input with `grads` shorter than `params`. -/
theorem adamw_zip_truncates_witness :
    (([[(0:ℚ)], [0]] : List Arr).length =
      ([[(1:ℚ)], [2]] : List Arr).length) ∧
    (∃ out st', adamw (fun x => x) [[(1:ℚ)], [2]] [[1]] 1
        (some ⟨[[0], [0]], [[0], [0]]⟩) (1/2) (1/2) 1 1 0 =
          some (out, st') ∧
      out.length = min ([[(1:ℚ)], [2]] : List Arr).length
        ([[(1:ℚ)]] : List Arr).length ∧
      (∀ i : ℕ, min ([[(1:ℚ)], [2]] : List Arr).length
          ([[(1:ℚ)]] : List Arr).length ≤ i →
        st'.m[i]? = ([[(0:ℚ)], [0]] : List Arr)[i]? ∧
        st'.v[i]? = ([[(0:ℚ)], [0]] : List Arr)[i]?) ∧
      adamw (fun x => x) [[(1:ℚ)], [2]] [[1]] 1
          (some ⟨[[0], [0]], [[0], [0]]⟩) (1/2) (1/2) 1 1 0 =
        adamw (fun x => x) [[(1:ℚ)], [2]]
          (([[(1:ℚ)]] : List Arr).take ([[(1:ℚ)], [2]] : List Arr).length) 1
          (some ⟨[[0], [0]], [[0], [0]]⟩) (1/2) (1/2) 1 1 0) :=
  ⟨rfl, adamw_zip_truncates (fun x => x) 1 (1/2) (1/2) 1 0 1
    [[1], [2]] [[1]] ⟨[[0], [0]], [[0], [0]]⟩ rfl rfl⟩

/-! ### C3, counterexample and actual behavior -/

/-- C3 counterexample: at `params=[[1],[2]]`, `grads=[[1]]` (length mismatch
2 vs 1), with a state of two zero moments each, the call does not fail with a
`ShapeMismatch`: it returns one updated parameter, and the first moment entry
has been mutated to `[1/2]` while the second stays `[0]`. -/
theorem adamw_shape_mismatch_counterexample :
    (adamw (fun x => x) [[1], [2]] [[1]] 1 (some ⟨[[0], [0]], [[0], [0]]⟩)
        (1/2) (1/2) 1 1 0).map (fun r => (r.1.length, r.2.m)) =
      some (1, [[1/2], [0]]) := by
  simp [adamw, adamwLoop, adamwStep, addA, smulA, sqA, divSc, divA, addSc,
    sqrtA, subA]
  norm_num

/-- C3 as the code actually behaves: there is no length validation at all —
any call whose `params` and `grads` lengths differ (with a state matching
`params` in length) still returns a result rather than failing
(`zip` silently truncates to the shorter of the two lists, see
`adamw_zip_truncates`). -/
theorem adamw_no_length_validation (sq : ℚ → ℚ)
    (learning_rate beta1 beta2 epsilon weight_decay : ℚ) (t : ℕ)
    (params grads : List Arr) (st : AdamWState)
    (hm : st.m.length = params.length) (hv : st.v.length = params.length)
    (hne : grads.length ≠ params.length) :
    (adamw sq params grads learning_rate (some st) beta1 beta2 epsilon t
      weight_decay).isSome = true := by
  rw [adamw_some_eq sq learning_rate beta1 beta2 epsilon weight_decay t
    params grads st (by simp [List.length_zip]; omega)
    (by simp [List.length_zip]; omega)]
  rfl

/-- Witness for the amended C3 at a concrete mismatched input. -/
theorem adamw_no_length_validation_witness :
    (([] : List Arr).length ≠ ([[(1:ℚ)]] : List Arr).length) ∧
    (adamw (fun x => x) [[(1:ℚ)]] [] 1 (some ⟨[[0]], [[0]]⟩) (1/2) (1/2) 1 1
      0).isSome = true :=
  ⟨by decide, adamw_no_length_validation (fun x => x) 1 (1/2) (1/2) 1 0 1
    [[1]] [] ⟨[[0]], [[0]]⟩ rfl rfl (by decide)⟩

/-! ### C4, counterexample and actual behavior -/

/-- C4 counterexample: `beta1 = 2` lies outside `(0,1)`, yet the call does
not fail with an `InvalidHyperparameter`: it returns a result whose first
moment has been mutated to `2*0 + (1-2)*1 = -1`. -/
theorem adamw_invalid_beta1_counterexample :
    (¬ ((0:ℚ) < 2 ∧ (2:ℚ) < 1)) ∧
    (adamw (fun x => x) [[1]] [[1]] 1 (some ⟨[[0]], [[0]]⟩) 2 (1/2) 1 1
        0).map (fun r => r.2.m) = some [[-1]] := by
  constructor
  · norm_num
  · simp [adamw, adamwLoop, adamwStep, addA, smulA, sqA, divSc, divA, addSc,
      sqrtA, subA]
    norm_num

/-- C4 as the code actually behaves: there is no hyperparameter validation —
for arbitrary `beta1`, `beta2`, `epsilon`, `learning_rate`, `weight_decay`
and `t` (including values far outside the spec's valid domain), a call with
matching lengths returns a result rather than failing. -/
theorem adamw_no_hyperparameter_validation (sq : ℚ → ℚ)
    (learning_rate beta1 beta2 epsilon weight_decay : ℚ) (t : ℕ)
    (params grads : List Arr) (st : AdamWState)
    (hg : grads.length = params.length)
    (hm : st.m.length = params.length) (hv : st.v.length = params.length) :
    (adamw sq params grads learning_rate (some st) beta1 beta2 epsilon t
      weight_decay).isSome = true := by
  rw [adamw_some_eq sq learning_rate beta1 beta2 epsilon weight_decay t
    params grads st (by simp [List.length_zip]; omega)
    (by simp [List.length_zip]; omega)]
  rfl

/-- Witness for the amended C4 at grossly invalid hyperparameters
(`beta1=2`, `beta2=3`, `epsilon=-1`, `learning_rate=-5`, `weight_decay=-2`,
`t=0`). -/
theorem adamw_no_hyperparameter_validation_witness :
    (([[(1:ℚ)]] : List Arr).length = ([[(1:ℚ)]] : List Arr).length) ∧
    (adamw (fun x => x) [[(1:ℚ)]] [[1]] (-5) (some ⟨[[0]], [[0]]⟩) 2 3 (-1) 0
      (-2)).isSome = true :=
  ⟨rfl, adamw_no_hyperparameter_validation (fun x => x) (-5) 2 3 (-1) (-2) 0
    [[1]] [[1]] ⟨[[0]], [[0]]⟩ rfl rfl rfl⟩
